import Mathlib

/-!
Verification of the hyli-noir TypeScript library against its
natural-language specification.

The development shallowly embeds the deterministic parts of
`src/check_secret.ts`, `src/check_jwt.ts` and `src/common.ts`:

* JS strings are Lean `String`s; byte sequences are `List Nat`
  (each entry a byte value).
* Thrown JS exceptions are modelled by `Except JsError`; the spec
  groups every length/format throw under the name ValidationError.
* External capabilities (the sha256 and poseidon2 hash primitives, the
  proof backend and the ledger client) are parameters of the embedded
  functions, exactly as the spec treats them (black boxes, section 6).
* JS builtins used by the source (`atob`, `parseInt`, `padEnd`,
  `toLowerCase`, `new Array(n).fill(0)`, `TextEncoder.encode`) are
  embedded as small Lean functions below, each documented at its
  definition.
-/

/-- Errors thrown by the embedded code.  The source throws plain JS
`Error`/`TypeError`/`RangeError` values; the spec groups all of them
under the taxonomy name ValidationError, so a single constructor
carrying the message suffices. -/
inductive JsError
  | validation : String → JsError
deriving DecidableEq, Repr

/-- True exactly when an embedded computation ended in a thrown error. -/
def isErr {ε α : Type} : Except ε α → Bool
  | Except.error _ => true
  | Except.ok _ => false

/-- Models the JS string method `s.padEnd(target, c)` for a one-character
pad string: append copies of `c` until the length reaches `target`; a
string already at least `target` long is returned unchanged. -/
def jsPadEnd (s : String) (target : Nat) (c : Char) : String :=
  s ++ String.mk (List.replicate (target - s.length) c)

/-- Models the JS string method `toLowerCase` (ASCII case folding). -/
def jsToLowerCase (s : String) : String :=
  String.mk (s.data.map Char.toLower)

/-- Models `new Array(n).fill(0)` where `n` is a possibly negative JS
number: a negative array length throws a RangeError. -/
def jsZeroArray (n : Int) : Except JsError (List Nat) :=
  if n < 0 then Except.error (JsError.validation "Invalid array length")
  else Except.ok (List.replicate n.toNat 0)

/-- UTF-8 encoding of a single character (1 to 4 bytes). -/
def utf8Char (c : Char) : List Nat :=
  let n := c.toNat
  if n < 128 then [n]
  else if n < 2048 then [192 + n / 64, 128 + n % 64]
  else if n < 65536 then [224 + n / 4096, 128 + n / 64 % 64, 128 + n % 64]
  else [240 + n / 262144, 128 + n / 4096 % 64, 128 + n / 64 % 64, 128 + n % 64]

/-- Embeds `stringToBytes` from `common.ts`: `new TextEncoder().encode(s)`,
i.e. the UTF-8 bytes of the string. -/
def stringToBytes (s : String) : List Nat :=
  (s.data.map utf8Char).flatten

/-- Value of one base64 alphabet character, `none` for a character
outside the alphabet. -/
def b64Val (c : Char) : Option Nat :=
  if 'A' ≤ c ∧ c ≤ 'Z' then some (c.toNat - 65)
  else if 'a' ≤ c ∧ c ≤ 'z' then some (c.toNat - 97 + 26)
  else if '0' ≤ c ∧ c ≤ '9' then some (c.toNat - 48 + 52)
  else if c = '+' then some 62
  else if c = '/' then some 63
  else none

/-- Strips up to two trailing padding characters from a base64 string of
length divisible by four, as the forgiving-base64 decode of `atob` does. -/
def stripB64Pad (l : List Char) : List Char :=
  if l.length % 4 = 0 then
    let l1 := if l.getLast? = some '=' then l.dropLast else l
    if l1.getLast? = some '=' then l1.dropLast else l1
  else l

/-- Turns a list of base64 sextet values into bytes: groups of four
sextets give three bytes, a final group of two or three gives one or
two bytes, and a dangling single sextet is malformed. -/
def b64DecodeVals : List Nat → Except JsError (List Nat)
  | [] => Except.ok []
  | [_] => Except.error (JsError.validation "InvalidCharacterError")
  | [a, b] => Except.ok [a * 4 + b / 16]
  | [a, b, c] => Except.ok [a * 4 + b / 16, b % 16 * 16 + c / 4]
  | a :: b :: c :: d :: rest =>
    match b64DecodeVals rest with
    | Except.error e => Except.error e
    | Except.ok t =>
      Except.ok ((a * 4 + b / 16) :: (b % 16 * 16 + c / 4) :: (c % 4 * 64 + d) :: t)

/-- Models the JS builtin `atob` (forgiving base64 decode, whitespace
handling omitted): returns the byte values of the decoded binary
string, throwing on a malformed length or an out-of-alphabet
character. -/
def atob (s : String) : Except JsError (List Nat) :=
  let cs := stripB64Pad s.data
  if cs.length % 4 = 1 then Except.error (JsError.validation "InvalidCharacterError")
  else
    match cs.mapM b64Val with
    | none => Except.error (JsError.validation "InvalidCharacterError")
    | some vals => b64DecodeVals vals

/-- Embeds `b64urlToU8` from `common.ts`: replace the base64url
characters by their base64 counterparts, `atob`, then take the char
codes of the decoded binary string. -/
def b64urlToU8 (s : String) : Except JsError (List Nat) :=
  let s2 := String.mk (s.data.map (fun c => if c = '-' then '+' else if c = '_' then '/' else c))
  atob s2

/-- Models the JS builtin `parseInt(s, 10)` on integer-valued inputs:
skip leading whitespace, read an optional sign and then leading decimal
digits; `none` models the `NaN` result when no digit is found.  (JS
numbers are IEEE doubles; inputs whose value rounds are outside this
model, and no claim below depends on them.) -/
def jsParseInt (s : String) : Option Int :=
  let cs := s.data.dropWhile (fun c => c = ' ' ∨ c = '\t' ∨ c = '\n' ∨ c = '\r')
  let signed : Int × List Char :=
    match cs with
    | '-' :: t => (-1, t)
    | '+' :: t => (1, t)
    | t => (1, t)
  let digits := signed.snd.takeWhile Char.isDigit
  if digits.isEmpty then none
  else some (signed.fst * (digits.foldl (fun a c => a * 10 + (c.toNat - 48)) 0 : Nat))

/-- Models the JS template stringification of a number that may be `NaN`:
`NaN` prints as the string NaN, an integer prints in decimal. -/
def jsNumToString : Option Int → String
  | none => "NaN"
  | some i => toString i

/-! ## common.ts: proof byte reconstruction helpers -/

/-- Embeds the `BigInt(hex).toString(16)` step of `hexToUint8Array` in
`common.ts` on the value denoted by the field-element string: the
minimal hex digit list of the value, most significant first (`0`
prints as one digit). -/
def jsHexString (n : Nat) : List Nat :=
  if n = 0 then [0] else (Nat.digits 16 n).reverse

/-- Embeds `padStart(64, "0")` on a digit list: left-pad with zero
digits up to the target length. -/
def padStart (k : Nat) (l : List Nat) : List Nat :=
  List.replicate (k - l.length) 0 ++ l

/-- Embeds the byte-building loop of `hexToUint8Array`: consecutive
pairs of hex digits become bytes. -/
def pairBytes : List Nat → List Nat
  | a :: b :: t => (a * 16 + b) :: pairBytes t
  | _ => []

/-- Embeds `hexToUint8Array` from `common.ts` on the value denoted by
the input string: print in hex, left-pad to 64 digits, then read the
digit pairs as bytes. -/
def hexToUint8Array (n : Nat) : List Nat :=
  pairBytes (padStart 64 (jsHexString n))

/-- Embeds `flattenFieldsAsArray` from `common.ts`: convert every
public-input field element (modelled by its denoted integer value) and
concatenate the results. -/
def flattenFieldsAsArray (fields : List Nat) : List Nat :=
  (fields.map hexToUint8Array).flatten

/-! ## check_secret.ts -/

/-- The `Blob` shape from the hyli package: a contract name and the
commitment bytes. -/
structure Blob where
  contract_name : String
  data : List Nat
deriving DecidableEq, Repr

/-- Embeds `build_blob` from `check_secret.ts`.  The external
`crypto.subtle` SHA-256 primitive is a parameter. -/
def build_blob (sha256 : List Nat → List Nat) (identity password : String) : Blob :=
  let hashed_password_bytes := sha256 (stringToBytes password)
  let extended_id := stringToBytes (identity ++ ":") ++ hashed_password_bytes
  let stored_hash := sha256 extended_id
  { contract_name := "check_secret", data := stored_hash }

/-- The HyliOutput-shaped input map built by `generateProverData` in
`check_secret.ts` (this variant also records `tx_hash_len`). -/
structure HyliOutputSecret where
  version : Nat
  initial_state : List Nat
  initial_state_len : Nat
  next_state : List Nat
  next_state_len : Nat
  identity : String
  identity_len : Nat
  tx_hash : String
  tx_hash_len : Nat
  index : Nat
  blob_number : Nat
  blob_index : Nat
  blob_contract_name_len : Nat
  blob_contract_name : String
  blob_capacity : Nat
  blob_len : Nat
  blob : List Nat
  tx_blob_count : Nat
  success : Nat
deriving DecidableEq, Repr

/-- Embeds `generateProverData` from `check_secret.ts`: builds the
prover input map (HyliOutput fields plus the hashed password), with
the two `assert` calls modelled as thrown errors. -/
def generateProverData (id : String) (pwd : List Nat) (stored_hash : List Nat)
    (tx : String) (blob_index tx_blob_count : Nat) :
    Except JsError (HyliOutputSecret × List Nat) :=
  let initial_state : List Nat := [0, 0, 0, 0]
  let next_state : List Nat := [0, 0, 0, 0]
  let identity := jsPadEnd id 256 '0'
  let tx_hash := jsPadEnd tx 64 '0'
  let blob_contract_name := jsPadEnd "check_secret" 256 '0'
  let blob_len := 32
  let blob := stored_hash
  let password := pwd
  if password.length = 32 then
    if blob.length = blob_len then
      Except.ok
        ({ version := 1
           initial_state := initial_state
           initial_state_len := initial_state.length
           next_state := next_state
           next_state_len := next_state.length
           identity := identity
           identity_len := id.length
           tx_hash := tx_hash
           tx_hash_len := tx_hash.length
           index := blob_index
           blob_number := 1
           blob_index := blob_index
           blob_contract_name_len := "check_secret".length
           blob_contract_name := blob_contract_name
           blob_capacity := 32
           blob_len := blob_len
           blob := blob
           tx_blob_count := tx_blob_count
           success := 1 }, password)
    else Except.error (JsError.validation "Blob length is not 32 bytes")
  else Except.error (JsError.validation "Password length is not 32 bytes")

/-- A contract descriptor as sent to `registerContract`. -/
structure ContractInfo where
  verifier : String
  program_id : List Nat
  state_commitment : List Nat
  contract_name : String
deriving DecidableEq, Repr

/-- The outcome of a ledger `getContract` lookup: success, the specific
not-found failure, or any other failure. -/
inductive LedgerError
  | notFound
  | other : String → LedgerError
deriving DecidableEq, Repr

/-- Embeds `register_contract` from `check_secret.ts`.  The ledger
client is external; the function receives the outcome of the single
`getContract` call it performs and returns the list of
`registerContract` calls it issues.  The source attaches one catch-all
`.catch` to the lookup, registering on any failure. -/
def register_contract_secret (vk : List Nat)
    (getContractResult : Except LedgerError Unit) : List ContractInfo :=
  match getContractResult with
  | Except.ok _ => []
  | Except.error _ =>
    [{ verifier := "noir", program_id := vk, state_commitment := [0, 0, 0, 0],
       contract_name := "check_secret" }]

/-- The proof and public inputs returned by the external proving
backend (`backend.generateProof`). -/
structure BackendProof where
  publicInputs : List Nat
  proof : List Nat
deriving DecidableEq, Repr

/-- Modelled from the spec: `reconstructHonkProof` comes from the
external aztec bb.js package and is not part of this repository; the
spec (section 4.4 and section 6) fixes its output as the flattened
public-input bytes followed by the raw backend proof bytes. -/
def reconstructHonkProof (publicInputsFlat proofBytes : List Nat) : List Nat :=
  publicInputsFlat ++ proofBytes

/-- The `ProofTransaction` shape returned by both proving pipelines. -/
structure ProofTransaction where
  contract_name : String
  program_id : List Nat
  verifier : String
  proof : List Nat
deriving DecidableEq, Repr

/-- Embeds the deterministic tail of `build_proof_transaction` in
`check_secret.ts`: the circuit execution and proving are external, so
the verification key and the backend proof are parameters; the
reconstruction of the canonical proof bytes and the assembly of the
returned record are local. -/
def build_proof_transaction_secret (vk : List Nat) (p : BackendProof) : ProofTransaction :=
  { contract_name := "check_secret", program_id := vk, verifier := "noir",
    proof := reconstructHonkProof (flattenFieldsAsArray p.publicInputs) p.proof }

/-! ## check_jwt.ts -/

/-- The contract name constant exported by `check_jwt.ts`. -/
def contract_name_jwt : String := "check_jwt"

/-- The HyliOutput-shaped input map built by `generateHyli` in
`check_jwt.ts` (no `tx_hash_len` field, boolean `success`). -/
structure HyliOutputJwt where
  version : Nat
  initial_state : List Nat
  initial_state_len : Nat
  next_state : List Nat
  next_state_len : Nat
  identity : String
  identity_len : Nat
  tx_hash : String
  index : Nat
  blob_number : Nat
  blob_index : Nat
  blob_contract_name_len : Nat
  blob_contract_name : String
  blob_capacity : Nat
  blob_len : Nat
  blob : List Nat
  tx_blob_count : Nat
  success : Bool
deriving DecidableEq, Repr

/-- Embeds `generateHyli` from `check_jwt.ts`: asserts that the blob
has exactly `blob_len = 306` bytes, then zero-pads it to the
`blob_capacity = 512` buffer and assembles the record.  The padding
loop writes the blob bytes over a zero-filled 512 array, which under
the length guard is the blob followed by zeros. -/
def generateHyli (id : String) (stored_hash : List Nat) (tx_hash : String)
    (blob_index tx_blob_count : Nat) : Except JsError HyliOutputJwt :=
  let initial_state : List Nat := [0, 0, 0, 0]
  let next_state : List Nat := [0, 0, 0, 0]
  let blob_capacity := 512
  let blob_len := 306
  if stored_hash.length = blob_len then
    let padded_blob := stored_hash ++ List.replicate (blob_capacity - stored_hash.length) 0
    Except.ok
      { version := 1
        initial_state := initial_state
        initial_state_len := initial_state.length
        next_state := next_state
        next_state_len := next_state.length
        identity := jsPadEnd id 256 '0'
        identity_len := id.length
        tx_hash := jsPadEnd tx_hash 64 '0'
        index := blob_index
        blob_number := 1
        blob_index := blob_index
        blob_contract_name_len := contract_name_jwt.length
        blob_contract_name := jsPadEnd contract_name_jwt 256 '0'
        blob_capacity := blob_capacity
        blob_len := blob_len
        blob := padded_blob
        tx_blob_count := tx_blob_count
        success := true }
  else
    Except.error (JsError.validation
      ("Blob length is " ++ toString stored_hash.length ++ " not "
        ++ toString blob_len ++ " bytes"))

/-- A JWT modelled by its decoded claim fields: the source splits the
token string, base64-decodes and JSON-parses it; that external string
parsing is abstracted and the token is represented by the claims the
code reads, each `none` when absent from the decoded JSON. -/
structure JwtToken where
  email : Option String
  nonce : Option String
  kid : Option String
deriving DecidableEq, Repr

/-- The claims record returned by `extract_jwt_claims`. -/
structure JwtClaims where
  email : String
  nonce : String
  kid : Option String
deriving DecidableEq, Repr

/-- Embeds `extract_jwt_claims` from `check_jwt.ts`: lowercases the
email and nonce payload claims and passes the header `kid` through
unchanged.  Reading `.toLowerCase()` of an absent claim throws a
TypeError, modelled as an error; an absent `kid` is simply the JS
`undefined`, modelled as `none`. -/
def extract_jwt_claims (jwt : JwtToken) : Except JsError JwtClaims :=
  match jwt.email with
  | none => Except.error (JsError.validation "TypeError: email is undefined")
  | some e =>
    match jwt.nonce with
    | none => Except.error (JsError.validation "TypeError: nonce is undefined")
    | some n =>
      Except.ok { email := jsToLowerCase e, nonce := jsToLowerCase n, kid := jwt.kid }

/-- A Google signing key as consumed by `build_blob_from_jwt`: its key
id and base64url-encoded RSA modulus. -/
structure Jwk where
  kid : String
  n : String
deriving DecidableEq, Repr

/-- Embeds `build_stored_hash` from `check_jwt.ts`.  The poseidon2 hash
primitive (external, via Barretenberg) is a parameter returning the 32
bytes of the field element; the nonce is the JS number produced by
`parseInt` (possibly NaN).  Returns the pair
`(mail_hash, stored_hash)`. -/
def build_stored_hash (poseidon : String → List Nat) (email : String)
    (nonce : Option Int) (pubkey : String) :
    Except JsError (List Nat × List Nat) := do
  let mail_hash := poseidon email
  let encoded := (jsNumToString nonce).data.map Char.toNat
  let remaining_len : Int := 16 - (encoded.length : Int)
  let zeros ← jsZeroArray remaining_len
  let decoded ← b64urlToU8 pubkey
  pure (mail_hash, mail_hash ++ [58] ++ encoded ++ zeros ++ [58] ++ decoded.reverse)

/-- The record returned by `build_blob_from_jwt`. -/
structure JwtBlobResult where
  blob : Blob
  nonce : Option Int
  mail_hash : List Nat
  pubkey : Jwk
deriving DecidableEq, Repr

/-- Embeds `build_blob_from_jwt` from `check_jwt.ts`: extract the
claims, reject a falsy email, nonce or kid (absent or empty string),
find the signing key whose kid matches, parse the nonce and build the
stored hash. -/
def build_blob_from_jwt (poseidon : String → List Nat)
    (jwt : JwtToken) (keys : List Jwk) : Except JsError JwtBlobResult := do
  let claims ← extract_jwt_claims jwt
  let kid := claims.kid.getD ""
  if claims.email = "" ∨ claims.nonce = "" ∨ kid = "" then
    Except.error (JsError.validation "Invalid Google token: missing email, nonce, or kid")
  else
    match keys.find? (fun key => key.kid == kid) with
    | none =>
      Except.error (JsError.validation
        ("Google public key with id " ++ kid ++ " not found"))
    | some pubkey => do
      let nonce_int := jsParseInt claims.nonce
      let hash ← build_stored_hash poseidon claims.email nonce_int pubkey.n
      pure { nonce := nonce_int, mail_hash := hash.fst, pubkey := pubkey,
             blob := { contract_name := contract_name_jwt, data := hash.snd } }

/-- Embeds `register_contract` from `check_jwt.ts`: like the secret
variant, a catch-all `.catch` on the `getContract` lookup registers on
any failure; on a successful lookup it returns `undefined`, otherwise
the freshly registered program id.  The second component lists the
`registerContract` calls issued. -/
def register_contract_jwt (vk : List Nat)
    (getContractResult : Except LedgerError Unit) :
    Option (List Nat) × List ContractInfo :=
  match getContractResult with
  | Except.ok _ => (none, [])
  | Except.error _ =>
    (some vk,
      [{ verifier := "noir", program_id := vk, state_commitment := [0, 0, 0, 0],
         contract_name := contract_name_jwt }])

/-- Embeds the deterministic tail of `build_proof_transaction` in
`check_jwt.ts`: witness generation and proving are external, so the
verification key and the backend proof are parameters; the canonical
proof byte reconstruction and the returned record are local. -/
def build_proof_transaction_jwt (vk : List Nat) (p : BackendProof) : ProofTransaction :=
  { contract_name := contract_name_jwt, program_id := vk, verifier := "noir",
    proof := reconstructHonkProof (flattenFieldsAsArray p.publicInputs) p.proof }

/-! ## Specification-side definitions -/

/-- The big-endian base-`b` representation of `n` in exactly `k`
digits: digit `i` is `n / b ^ (k - 1 - i) % b`. -/
def beDigits (b k n : Nat) : List Nat :=
  (List.range k).map (fun i => n / b ^ (k - 1 - i) % b)

/-- The exact `k`-byte big-endian encoding of `n`, as the spec words
the 32-byte public-input encoding. -/
def beBytes (k n : Nat) : List Nat := beDigits 256 k n

/-- The value of a big-endian digit list in base `b`. -/
def ofBE (b : Nat) (l : List Nat) : Nat :=
  l.foldl (fun acc d => b * acc + d) 0

/-! ## Helper lemmas -/

theorem beDigits_succ (b k n : Nat) :
    beDigits b (k + 1) n = n / b ^ k % b :: beDigits b k (n % b ^ k) := by
  unfold beDigits
  rw [List.range_succ_eq_map]
  simp only [List.map_cons, List.map_map, Nat.add_sub_cancel, Nat.sub_zero]
  refine congrArg₂ List.cons (by simp) ?_
  refine List.map_congr_left ?_
  intro i hi
  have hik : i < k := List.mem_range.mp hi
  simp only [Function.comp_apply]
  rw [show k - i.succ = k - 1 - i from by omega]
  have hj : k - 1 - i + 1 ≤ k := by omega
  rw [← Nat.mod_mul_right_div_self, ← Nat.mod_mul_right_div_self,
    Nat.mod_mod_of_dvd n (by rw [← pow_succ]; exact pow_dvd_pow b hj)]

theorem foldl_ofBE (b : Nat) (l : List Nat) (a : Nat) :
    l.foldl (fun acc d => b * acc + d) a = a * b ^ l.length + ofBE b l := by
  induction l generalizing a with
  | nil => simp [ofBE]
  | cons d t ih =>
    have hd : ofBE b (d :: t) = d * b ^ t.length + ofBE b t := by
      show t.foldl (fun acc d => b * acc + d) (b * 0 + d) = _
      rw [ih]
      ring_nf
    simp only [List.foldl_cons, List.length_cons, hd]
    rw [ih]
    ring

theorem ofBE_cons (b d : Nat) (t : List Nat) :
    ofBE b (d :: t) = d * b ^ t.length + ofBE b t := by
  show t.foldl (fun acc d => b * acc + d) (b * 0 + d) = _
  rw [foldl_ofBE]
  ring_nf

theorem ofBE_lt (b : Nat) (l : List Nat) (hl : ∀ d ∈ l, d < b) :
    ofBE b l < b ^ l.length := by
  induction l with
  | nil => simp [ofBE]
  | cons d t ih =>
    have hd : d < b := hl d (by simp)
    have ht : ofBE b t < b ^ t.length := ih (fun x hx => hl x (by simp [hx]))
    rw [ofBE_cons, List.length_cons, pow_succ, mul_comm (b ^ t.length) b]
    calc d * b ^ t.length + ofBE b t < d * b ^ t.length + b ^ t.length := by omega
      _ = (d + 1) * b ^ t.length := by ring
      _ ≤ b * b ^ t.length := Nat.mul_le_mul_right _ hd

theorem beDigits_ofBE (b : Nat) (hb : 1 < b) (l : List Nat)
    (hl : ∀ d ∈ l, d < b) : beDigits b l.length (ofBE b l) = l := by
  induction l with
  | nil => rfl
  | cons d t ih =>
    have hd : d < b := hl d (by simp)
    have ht : ofBE b t < b ^ t.length := ofBE_lt b t (fun x hx => hl x (by simp [hx]))
    have hpos : 0 < b ^ t.length := Nat.pos_pow_of_pos _ (by omega)
    rw [List.length_cons, ofBE_cons, beDigits_succ]
    have hdiv : (d * b ^ t.length + ofBE b t) / b ^ t.length = d := by
      rw [Nat.add_comm, mul_comm, Nat.add_mul_div_left _ _ hpos,
        Nat.div_eq_of_lt ht, Nat.zero_add]
    have hmod : (d * b ^ t.length + ofBE b t) % b ^ t.length = ofBE b t := by
      rw [mul_comm, Nat.mul_add_mod, Nat.mod_eq_of_lt ht]
    rw [hdiv, hmod, Nat.mod_eq_of_lt hd, ih (fun x hx => hl x (by simp [hx]))]

theorem ofBE_replicate_zero_append (b m : Nat) (l : List Nat) :
    ofBE b (List.replicate m 0 ++ l) = ofBE b l := by
  have h0 : ∀ m : Nat, (List.replicate m 0).foldl (fun acc d => b * acc + d) 0 = 0 := by
    intro m
    induction m with
    | zero => rfl
    | succ m ih => simpa [List.replicate_succ] using ih
  show (List.replicate m 0 ++ l).foldl (fun acc d => b * acc + d) 0 = _
  rw [List.foldl_append, h0]
  rfl

theorem ofBE_reverse_digits (b n : Nat) :
    ofBE b ((Nat.digits b n).reverse) = n := by
  have key : ∀ l : List Nat, ofBE b l.reverse = Nat.ofDigits b l := by
    intro l
    induction l with
    | nil => rfl
    | cons d t ih =>
      rw [List.reverse_cons]
      have : ofBE b (t.reverse ++ [d])
          = (t.reverse ++ [d]).foldl (fun acc x => b * acc + x) 0 := rfl
      rw [this, List.foldl_append]
      show b * (t.reverse.foldl (fun acc x => b * acc + x) 0) + d = _
      have ht : t.reverse.foldl (fun acc x => b * acc + x) 0 = ofBE b t.reverse := rfl
      rw [ht, ih, Nat.ofDigits_cons]
      ring
  rw [key, Nat.ofDigits_digits]

theorem jsHexString_lt (n : Nat) : ∀ d ∈ jsHexString n, d < 16 := by
  intro d hd
  unfold jsHexString at hd
  by_cases hn : n = 0
  · simp [hn] at hd
    omega
  · rw [if_neg hn, List.mem_reverse] at hd
    exact Nat.digits_lt_base (by norm_num) hd

theorem jsHexString_ofBE (n : Nat) : ofBE 16 (jsHexString n) = n := by
  unfold jsHexString
  by_cases hn : n = 0
  · simp [hn]
    rfl
  · rw [if_neg hn, ofBE_reverse_digits]

theorem jsHexString_len (n : Nat) (h : n < 16 ^ 64) :
    (jsHexString n).length ≤ 64 := by
  unfold jsHexString
  by_cases hn : n = 0
  · simp [hn]
  · rw [if_neg hn, List.length_reverse]
    have hlen := Nat.digits_len 16 n (by norm_num) hn
    have hlog : Nat.log 16 n < 64 := (Nat.lt_pow_iff_log_lt (by norm_num) hn).mp h
    omega

theorem padStart_eq_beDigits (n : Nat) (h : n < 16 ^ 64) :
    padStart 64 (jsHexString n) = beDigits 16 64 n := by
  have hlen : (jsHexString n).length ≤ 64 := jsHexString_len n h
  have hl : (padStart 64 (jsHexString n)).length = 64 := by
    simp only [padStart, List.length_append, List.length_replicate]
    omega
  have hmem : ∀ d ∈ padStart 64 (jsHexString n), d < 16 := by
    intro d hd
    rcases List.mem_append.mp hd with hd | hd
    · rw [List.eq_of_mem_replicate hd]
      omega
    · exact jsHexString_lt n d hd
  have hof : ofBE 16 (padStart 64 (jsHexString n)) = n := by
    unfold padStart
    rw [ofBE_replicate_zero_append, jsHexString_ofBE]
  have := beDigits_ofBE 16 (by norm_num) (padStart 64 (jsHexString n)) hmem
  rw [hl, hof] at this
  exact this.symm

theorem pairBytes_beDigits (k : Nat) : ∀ n : Nat,
    pairBytes (beDigits 16 (2 * k) n) = beDigits 256 k n := by
  induction k with
  | zero => intro n; rfl
  | succ k ih =>
    intro n
    have h2 : 2 * (k + 1) = (2 * k + 1) + 1 := by ring
    have e256 : (256 : Nat) ^ k = 16 ^ (2 * k) := by
      rw [show (256 : Nat) = 16 ^ 2 by norm_num, ← pow_mul]
    have epow : (16 : Nat) ^ (2 * k) * 16 = 16 ^ (2 * k + 1) := by
      rw [pow_succ]
    rw [h2, beDigits_succ 16 (2 * k + 1) n, beDigits_succ 16 (2 * k),
      beDigits_succ 256 k n]
    simp only [pairBytes]
    have hmm : n % 16 ^ (2 * k + 1) % 16 ^ (2 * k) = n % 16 ^ (2 * k) :=
      Nat.mod_mod_of_dvd n (pow_dvd_pow 16 (by omega))
    have hd2 : n % 16 ^ (2 * k + 1) / 16 ^ (2 * k) = n / 16 ^ (2 * k) % 16 := by
      rw [← Nat.mod_mul_right_div_self, epow]
    have hd1 : n / 16 ^ (2 * k + 1) = n / 16 ^ (2 * k) / 16 := by
      rw [Nat.div_div_eq_div_mul, epow]
    have hhead : (n / 16 ^ (2 * k + 1) % 16) * 16
        + n % 16 ^ (2 * k + 1) / 16 ^ (2 * k) % 16 = n / 256 ^ k % 256 := by
      rw [hd1, hd2, e256]
      omega
    rw [hmm, ih (n % 16 ^ (2 * k)), hhead, e256]

theorem hexToUint8Array_eq_beBytes (n : Nat) (h : n < 2 ^ 256) :
    hexToUint8Array n = beBytes 32 n := by
  have h16 : n < 16 ^ 64 := by
    rw [show (16 : Nat) ^ 64 = 2 ^ 256 by norm_num]
    exact h
  unfold hexToUint8Array beBytes
  rw [padStart_eq_beDigits n h16, show 64 = 2 * 32 by norm_num,
    pairBytes_beDigits 32 n]

/-- String append acts on the underlying character lists. -/
theorem string_data_append (s t : String) : (s ++ t).data = s.data ++ t.data := rfl

theorem jsPadEnd_data (s : String) (target : Nat) (c : Char) :
    (jsPadEnd s target c).data = s.data ++ List.replicate (target - s.length) c := rfl

theorem jsPadEnd_of_le (s : String) (target : Nat) (c : Char)
    (h : target ≤ s.length) : jsPadEnd s target c = s := by
  have : (jsPadEnd s target c).data = s.data := by
    rw [jsPadEnd_data, Nat.sub_eq_zero_of_le h]
    simp
  exact String.ext this

theorem stringToBytes_append (s t : String) :
    stringToBytes (s ++ t) = stringToBytes s ++ stringToBytes t := by
  unfold stringToBytes
  rw [string_data_append, List.map_append, List.flatten_append]

theorem jsPadEnd_drop (s : String) (t : Nat) (c : Char) :
    (jsPadEnd s t c).data.drop s.length = List.replicate (t - s.length) c := by
  rw [jsPadEnd_data]
  have h : s.length = s.data.length := rfl
  rw [h, List.drop_left]

theorem jsPadEnd_length (s : String) (t : Nat) (c : Char) :
    (jsPadEnd s t c).length = s.length + (t - s.length) := by
  show (jsPadEnd s t c).data.length = _
  rw [jsPadEnd_data, List.length_append, List.length_replicate]
  rfl

/-! ## Claims -/

/-- Claim C1, counterexample: the claim asserts that assembling with
`blob.data.length == blob_capacity` always succeeds, but the JWT record
assembler has `blob_capacity = 512` while its assert demands exactly
306 blob bytes, so a 512-byte blob (equal to the capacity) is
rejected. -/
theorem claim_c1_counterexample :
    (List.replicate 512 (0 : Nat)).length = 512 ∧
    generateHyli "alice" (List.replicate 512 0) "tx" 0 1 =
      Except.error (JsError.validation "Blob length is 512 not 306 bytes") := by
  constructor
  · rw [List.length_replicate]
  · simp only [generateHyli]
    rw [if_neg (by rw [List.length_replicate]; omega), List.length_replicate]
    rfl

/-- Claim C1 as amended: for both record assemblers a blob longer than
the capacity fails; the secret-check assembler succeeds exactly when
the blob length equals its capacity 32 (given the 32-byte hashed
password), failing for every other blob length and leaving no padding;
the JWT assembler fails for every blob length other than its fixed
`blob_len` 306 — in particular even at its capacity 512 — and at
length 306 succeeds, zero-padding the blob buffer up to 512. -/
theorem claim_c1_amended :
    (∀ id blob tx bi tb, 512 < blob.length →
      isErr (generateHyli id blob tx bi tb) = true) ∧
    (∀ id pwd blob tx bi tb, 32 < blob.length →
      isErr (generateProverData id pwd blob tx bi tb) = true) ∧
    (∀ id pwd blob tx bi tb, blob.length ≠ 32 →
      isErr (generateProverData id pwd blob tx bi tb) = true) ∧
    (∀ id pwd blob tx bi tb, pwd.length = 32 → blob.length = 32 →
      (generateProverData id pwd blob tx bi tb).toOption.map
          (fun p => (p.fst.blob, p.fst.blob_len, p.fst.blob_capacity)) =
        some (blob, 32, 32)) ∧
    (∀ id blob tx bi tb, blob.length = 512 →
      isErr (generateHyli id blob tx bi tb) = true) ∧
    (∀ id blob tx bi tb, blob.length ≠ 306 →
      isErr (generateHyli id blob tx bi tb) = true) ∧
    (∀ id blob tx bi tb, blob.length = 306 →
      (generateHyli id blob tx bi tb).toOption.map
          (fun r => (r.blob, r.blob_len, r.blob_capacity)) =
        some (blob ++ List.replicate 206 0, 306, 512)) := by
  have hyli_ne : ∀ (id : String) (blob : List Nat) (tx : String) (bi tb : Nat),
      blob.length ≠ 306 → isErr (generateHyli id blob tx bi tb) = true := by
    intro id blob tx bi tb h
    simp only [generateHyli]
    rw [if_neg h]
    rfl
  have secret_ne : ∀ (id : String) (pwd blob : List Nat) (tx : String) (bi tb : Nat),
      blob.length ≠ 32 → isErr (generateProverData id pwd blob tx bi tb) = true := by
    intro id pwd blob tx bi tb h
    simp only [generateProverData]
    by_cases hp : pwd.length = 32
    · rw [if_pos hp, if_neg h]
      rfl
    · rw [if_neg hp]
      rfl
  refine ⟨?_, ?_, secret_ne, ?_, ?_, hyli_ne, ?_⟩
  · intro id blob tx bi tb h
    exact hyli_ne id blob tx bi tb (by omega)
  · intro id pwd blob tx bi tb h
    exact secret_ne id pwd blob tx bi tb (by omega)
  · intro id pwd blob tx bi tb hp hb
    simp only [generateProverData]
    rw [if_pos hp, if_pos hb]
    rfl
  · intro id blob tx bi tb h
    exact hyli_ne id blob tx bi tb (by omega)
  · intro id blob tx bi tb hb
    simp only [generateHyli]
    rw [if_pos hb, hb]
    rfl

/-- Claim C1 witness: a concrete 32-byte blob assembles successfully in
the secret-check variant with no padding. -/
theorem claim_c1_witness :
    (generateProverData "alice" (List.replicate 32 0) (List.replicate 32 7) "tx" 0 1).toOption.map
        (fun p => (p.fst.blob, p.fst.blob_len, p.fst.blob_capacity)) =
      some (List.replicate 32 7, 32, 32) :=
  claim_c1_amended.2.2.2.1 "alice" (List.replicate 32 0) (List.replicate 32 7) "tx" 0 1
    (by simp) (by simp)

/-- Claim C2, counterexample: the claim asserts that every padded byte
beyond the recorded length is zero and that every recorded length is
the true pre-padding length; but for identity `a` the secret-variant
record pads the identity with the ASCII character `0` (byte value 48,
not zero) and records `tx_hash_len = 64`, the padded length, not the
true length 1 of the transaction hash `t`. -/
theorem claim_c2_counterexample :
    (generateProverData "a" (List.replicate 32 0) (List.replicate 32 7) "t" 0 1).toOption.map
        (fun p => ((p.fst.identity.data.getD 1 ' ').toNat, p.fst.identity_len,
          p.fst.tx_hash_len, ("t" : String).length)) =
      some (48, 1, 64, 1) ∧ (48 : Nat) ≠ 0 ∧ (64 : Nat) ≠ 1 := by
  refine ⟨?_, by omega, by omega⟩
  simp only [generateProverData]
  rw [if_pos (by rw [List.length_replicate]), if_pos (by rw [List.length_replicate])]
  rfl

/-- Claim C2 as amended: in every successfully assembled record the
companions `identity_len`, `blob_contract_name_len` and `blob_len`
equal the true pre-padding lengths, but the secret variant records in
`tx_hash_len` the length of the already padded transaction hash (64
whenever the input is at most 64 characters); the padded tails of the
string fields consist of the ASCII character `0` (byte 48), and only
the JWT blob byte buffer is padded with zero bytes. -/
theorem claim_c2_amended :
    (∀ id pwd blob tx bi tb, pwd.length = 32 → blob.length = 32 →
      ∃ r : HyliOutputSecret,
        generateProverData id pwd blob tx bi tb = Except.ok (r, pwd) ∧
        r.identity_len = id.length ∧
        r.blob_contract_name_len = ("check_secret" : String).length ∧
        r.blob_len = blob.length ∧
        r.tx_hash_len = tx.length + (64 - tx.length) ∧
        r.identity.data.drop id.length = List.replicate (256 - id.length) '0' ∧
        r.blob_contract_name.data.drop ("check_secret" : String).length =
          List.replicate (256 - ("check_secret" : String).length) '0' ∧
        r.tx_hash.data.drop tx.length = List.replicate (64 - tx.length) '0' ∧
        r.blob = blob) ∧
    (∀ id blob tx bi tb, blob.length = 306 →
      ∃ r : HyliOutputJwt,
        generateHyli id blob tx bi tb = Except.ok r ∧
        r.identity_len = id.length ∧
        r.blob_contract_name_len = contract_name_jwt.length ∧
        r.blob_len = blob.length ∧
        r.identity.data.drop id.length = List.replicate (256 - id.length) '0' ∧
        r.blob_contract_name.data.drop contract_name_jwt.length =
          List.replicate (256 - contract_name_jwt.length) '0' ∧
        r.tx_hash.data.drop tx.length = List.replicate (64 - tx.length) '0' ∧
        r.blob.drop blob.length = List.replicate 206 0) := by
  constructor
  · intro id pwd blob tx bi tb hp hb
    simp only [generateProverData]
    rw [if_pos hp, if_pos hb]
    refine ⟨_, rfl, rfl, rfl, hb.symm, jsPadEnd_length tx 64 '0', jsPadEnd_drop id 256 '0',
      jsPadEnd_drop "check_secret" 256 '0', jsPadEnd_drop tx 64 '0', rfl⟩
  · intro id blob tx bi tb hb
    simp only [generateHyli]
    rw [if_pos hb]
    refine ⟨_, rfl, rfl, rfl, hb.symm, jsPadEnd_drop id 256 '0',
      jsPadEnd_drop contract_name_jwt 256 '0', jsPadEnd_drop tx 64 '0', ?_⟩
    show (blob ++ List.replicate (512 - blob.length) 0).drop blob.length = _
    rw [show blob.length = blob.length from rfl, List.drop_left, hb]

/-- Claim C2 witness: the amended invariants instantiated on a concrete
record of the secret variant. -/
theorem claim_c2_witness :
    ∃ r : HyliOutputSecret,
      generateProverData "bob" (List.replicate 32 0) (List.replicate 32 9) "deadbeef" 0 1 =
        Except.ok (r, List.replicate 32 0) ∧
      r.identity_len = ("bob" : String).length ∧
      r.blob_contract_name_len = ("check_secret" : String).length ∧
      r.blob_len = (List.replicate 32 (9 : Nat)).length ∧
      r.tx_hash_len = ("deadbeef" : String).length + (64 - ("deadbeef" : String).length) ∧
      r.identity.data.drop ("bob" : String).length =
        List.replicate (256 - ("bob" : String).length) '0' ∧
      r.blob_contract_name.data.drop ("check_secret" : String).length =
        List.replicate (256 - ("check_secret" : String).length) '0' ∧
      r.tx_hash.data.drop ("deadbeef" : String).length =
        List.replicate (64 - ("deadbeef" : String).length) '0' ∧
      r.blob = List.replicate 32 9 :=
  claim_c2_amended.1 "bob" (List.replicate 32 0) (List.replicate 32 9) "deadbeef" 0 1
    (by rw [List.length_replicate]) (by rw [List.length_replicate])

/-- Claim C9 (implicit): an identity longer than 256 units is neither
padded nor truncated by either record assembler; assembly succeeds
(given otherwise valid blob and password data) and the record carries
the identity unchanged with `identity_len` its full length. -/
theorem claim_c9 :
    (∀ id pwd blob tx bi tb, 256 < id.length → pwd.length = 32 → blob.length = 32 →
      (generateProverData id pwd blob tx bi tb).toOption.map
        (fun p => (p.fst.identity, p.fst.identity_len)) = some (id, id.length)) ∧
    (∀ id blob tx bi tb, 256 < id.length → blob.length = 306 →
      (generateHyli id blob tx bi tb).toOption.map
        (fun r => (r.identity, r.identity_len)) = some (id, id.length)) := by
  constructor
  · intro id pwd blob tx bi tb hid hp hb
    simp only [generateProverData]
    rw [if_pos hp, if_pos hb]
    simp only [Except.toOption]
    rw [jsPadEnd_of_le id 256 '0' (by omega)]
    rfl
  · intro id blob tx bi tb hid hb
    simp only [generateHyli]
    rw [if_pos hb]
    simp only [Except.toOption]
    rw [jsPadEnd_of_le id 256 '0' (by omega)]
    rfl

/-- Claim C9 witness: a 257-character identity passes through the
secret-variant assembler unchanged. -/
theorem claim_c9_witness :
    (generateProverData (String.mk (List.replicate 257 'a')) (List.replicate 32 0)
        (List.replicate 32 7) "tx" 0 1).toOption.map
      (fun p => (p.fst.identity, p.fst.identity_len)) =
    some (String.mk (List.replicate 257 'a'), (String.mk (List.replicate 257 'a')).length) :=
  claim_c9.1 (String.mk (List.replicate 257 'a')) (List.replicate 32 0)
    (List.replicate 32 7) "tx" 0 1
    (by show 256 < (List.replicate 257 'a').length; rw [List.length_replicate]; omega)
    (by rw [List.length_replicate]) (by rw [List.length_replicate])

theorem string_length_data (s : String) : s.data.length = s.length := rfl

/-- Claim C3: for every email, every nonce whose ASCII encoding fits in
16 bytes and every modulus that base64url-decodes, the JWT blob bytes
are the 32-byte poseidon2 hash of the email, a `0x3A` separator, the
ASCII nonce zero-padded to 16 bytes, another `0x3A`, and the reversed
base64url-decoded modulus. -/
theorem claim_c3 (poseidon : String → List Nat) (email : String)
    (nonce : Option Int) (modulus : String) (d : List Nat)
    (_h32 : (poseidon email).length = 32)
    (hlen : (jsNumToString nonce).length ≤ 16)
    (hdec : b64urlToU8 modulus = Except.ok d) :
    build_stored_hash poseidon email nonce modulus =
      Except.ok (poseidon email,
        poseidon email ++ [58]
          ++ ((jsNumToString nonce).data.map Char.toNat
              ++ List.replicate (16 - (jsNumToString nonce).length) 0)
          ++ [58] ++ d.reverse) := by
  have hlen2 : ((jsNumToString nonce).data.map Char.toNat).length ≤ 16 := by
    rw [List.length_map, string_length_data]
    exact hlen
  have hnot : ¬ ((16 : Int) - (((jsNumToString nonce).data.map Char.toNat).length : Int) < 0) := by
    omega
  have htn : ((16 : Int) - (((jsNumToString nonce).data.map Char.toNat).length : Int)).toNat
      = 16 - (jsNumToString nonce).length := by
    rw [← string_length_data]
    rw [List.length_map] at hlen2 ⊢
    rw [string_length_data] at hlen2 ⊢
    omega
  unfold build_stored_hash
  simp only [jsZeroArray, if_neg hnot, hdec, htn, bind, Except.bind, pure, Except.pure]
  simp [List.append_assoc]

/-- Claim C3 witness: concrete inputs with a dummy 32-byte hash
primitive, nonce 12345 and the modulus `AQAB` (decoding to the bytes
of 65537). -/
theorem claim_c3_witness :
    build_stored_hash (fun _ => List.replicate 32 3) "alice at example.com"
        (some 12345) "AQAB" =
      Except.ok (List.replicate 32 3,
        List.replicate 32 3 ++ [58]
          ++ ((jsNumToString (some 12345)).data.map Char.toNat
              ++ List.replicate (16 - (jsNumToString (some 12345)).length) 0)
          ++ [58] ++ ([1, 0, 1] : List Nat).reverse) :=
  claim_c3 (fun _ => List.replicate 32 3) "alice at example.com" (some 12345) "AQAB"
    [1, 0, 1] (by rw [List.length_replicate]) (by decide) (by rfl)

/-- Claim C8 (determinism): the JWT blob builder is a pure function of
its arguments, so two calls with identical email, nonce and modulus
(and the same external poseidon2 primitive) produce byte-identical
results. -/
theorem claim_c8 (poseidon : String → List Nat) (e1 e2 : String)
    (n1 n2 : Option Int) (m1 m2 : String)
    (he : e1 = e2) (hn : n1 = n2) (hm : m1 = m2) :
    build_stored_hash poseidon e1 n1 m1 = build_stored_hash poseidon e2 n2 m2 := by
  rw [he, hn, hm]

/-- Claim C8 witness: two identical concrete invocations agree. -/
theorem claim_c8_witness :
    build_stored_hash (fun _ => List.replicate 32 3) "bob" (some 7) "AQAB" =
      build_stored_hash (fun _ => List.replicate 32 3) "bob" (some 7) "AQAB" :=
  claim_c8 (fun _ => List.replicate 32 3) "bob" "bob" (some 7) (some 7) "AQAB" "AQAB"
    rfl rfl rfl

/-- Claim C7: building a JWT blob fails whenever the ASCII encoding of
the nonce number exceeds 16 bytes (the zero-filler array would get a
negative length), whenever a required claim (email, nonce, kid) is
absent from the decoded token, and whenever no signing key in the
provided list has the kid of the token. -/
theorem claim_c7 :
    (∀ (poseidon : String → List Nat) (email : String) (nonce : Option Int) (modulus : String),
      16 < (jsNumToString nonce).length →
      isErr (build_stored_hash poseidon email nonce modulus) = true) ∧
    (∀ (poseidon : String → List Nat) (jwt : JwtToken) (keys : List Jwk),
      jwt.email = none ∨ jwt.nonce = none ∨ jwt.kid = none →
      isErr (build_blob_from_jwt poseidon jwt keys) = true) ∧
    (∀ (poseidon : String → List Nat) (jwt : JwtToken) (keys : List Jwk) (k : String),
      jwt.kid = some k → (∀ key ∈ keys, key.kid ≠ k) →
      isErr (build_blob_from_jwt poseidon jwt keys) = true) := by
  refine ⟨?_, ?_, ?_⟩
  · intro poseidon email nonce modulus hlen
    have hlen2 : 16 < ((jsNumToString nonce).data.map Char.toNat).length := by
      rw [List.length_map, string_length_data]
      exact hlen
    have hneg : ((16 : Int) - (((jsNumToString nonce).data.map Char.toNat).length : Int)) < 0 := by
      omega
    unfold build_stored_hash
    simp only [jsZeroArray, if_pos hneg, bind, Except.bind]
    rfl
  · intro poseidon jwt keys h
    unfold build_blob_from_jwt
    cases hje : jwt.email with
    | none => simp [extract_jwt_claims, hje, bind, Except.bind, isErr]
    | some e =>
      cases hjn : jwt.nonce with
      | none => simp [extract_jwt_claims, hje, hjn, bind, Except.bind, isErr]
      | some n =>
        have hjk : jwt.kid = none := by
          rcases h with h | h | h
          · rw [hje] at h; cases h
          · rw [hjn] at h; cases h
          · exact h
        simp only [extract_jwt_claims, hje, hjn, hjk, bind, Except.bind, Option.getD]
        rw [if_pos (by simp)]
        rfl
  · intro poseidon jwt keys k hjk hkeys
    unfold build_blob_from_jwt
    cases hje : jwt.email with
    | none => simp [extract_jwt_claims, hje, bind, Except.bind, isErr]
    | some e =>
      cases hjn : jwt.nonce with
      | none => simp [extract_jwt_claims, hje, hjn, bind, Except.bind, isErr]
      | some n =>
        simp only [extract_jwt_claims, hje, hjn, hjk, bind, Except.bind, Option.getD]
        by_cases hguard : jsToLowerCase e = "" ∨ jsToLowerCase n = "" ∨ k = ""
        · rw [if_pos hguard]
          rfl
        · rw [if_neg hguard]
          have hfind : keys.find? (fun key => key.kid == k) = none := by
            rw [List.find?_eq_none]
            intro key hkey
            simpa using hkeys key hkey
          rw [hfind]
          rfl

/-- Claim C7 witness: an 18-digit nonce number (ASCII encoding longer
than 16 bytes) makes the blob construction fail. -/
theorem claim_c7_witness :
    isErr (build_stored_hash (fun _ => List.replicate 32 3) "alice"
      (some 100000000000000000) "AQAB") = true :=
  claim_c7.1 (fun _ => List.replicate 32 3) "alice" (some 100000000000000000) "AQAB"
    (by decide)

/-- Claim C10 (implicit): `extract_jwt_claims` lowercases the email and
nonce claims and passes the kid through unchanged, so the whole blob
derivation is invariant under letter-case changes in the email and
nonce claims of the token. -/
theorem claim_c10 :
    (∀ (jwt : JwtToken) (e n k : String),
      jwt.email = some e → jwt.nonce = some n → jwt.kid = some k →
      extract_jwt_claims jwt =
        Except.ok { email := jsToLowerCase e, nonce := jsToLowerCase n, kid := some k }) ∧
    (∀ (poseidon : String → List Nat) (keys : List Jwk) (jwt1 jwt2 : JwtToken)
        (e1 e2 n1 n2 k : String),
      jwt1.email = some e1 → jwt2.email = some e2 →
      jsToLowerCase e1 = jsToLowerCase e2 →
      jwt1.nonce = some n1 → jwt2.nonce = some n2 →
      jsToLowerCase n1 = jsToLowerCase n2 →
      jwt1.kid = some k → jwt2.kid = some k →
      build_blob_from_jwt poseidon jwt1 keys = build_blob_from_jwt poseidon jwt2 keys) := by
  constructor
  · intro jwt e n k hje hjn hjk
    simp only [extract_jwt_claims, hje, hjn, hjk]
  · intro poseidon keys jwt1 jwt2 e1 e2 n1 n2 k hje1 hje2 he hjn1 hjn2 hn hjk1 hjk2
    unfold build_blob_from_jwt
    simp only [extract_jwt_claims, hje1, hje2, hjn1, hjn2, hjk1, hjk2, bind, Except.bind]
    rw [he, hn]

/-- Claim C10 witness: concrete mixed-case claims are lowercased while
the kid passes through. -/
theorem claim_c10_witness :
    extract_jwt_claims
        { email := some "Alice at Example.COM", nonce := some "NONCE7",
          kid := some "Kid-1" } =
      Except.ok
        { email := jsToLowerCase "Alice at Example.COM",
          nonce := jsToLowerCase "NONCE7", kid := some "Kid-1" } :=
  claim_c10.1
    { email := some "Alice at Example.COM", nonce := some "NONCE7",
      kid := some "Kid-1" }
    "Alice at Example.COM" "NONCE7" "Kid-1" rfl rfl rfl

/-- Claim C4: `build_blob` returns the contract name `check_secret`
and, for a SHA-256 primitive returning 32-byte digests, the data
`sha256(utf8(identity) 0x3A sha256(utf8(password)))`, exactly 32
bytes long. -/
theorem claim_c4 (sha256 : List Nat → List Nat)
    (h32 : ∀ bs, (sha256 bs).length = 32) (identity password : String) :
    (build_blob sha256 identity password).contract_name = "check_secret" ∧
    (build_blob sha256 identity password).data =
      sha256 (stringToBytes identity ++ [58] ++ sha256 (stringToBytes password)) ∧
    (build_blob sha256 identity password).data.length = 32 := by
  refine ⟨rfl, ?_, h32 _⟩
  show sha256 (stringToBytes (identity ++ ":") ++ sha256 (stringToBytes password)) = _
  rw [stringToBytes_append]
  have hc : stringToBytes ":" = [58] := rfl
  rw [hc, List.append_assoc]

/-- Claim C4 witness: the scenario of the spec with a dummy 32-byte
hash primitive. -/
theorem claim_c4_witness :
    (build_blob (fun _ => List.replicate 32 1) "alice" "secret123").contract_name =
        "check_secret" ∧
    (build_blob (fun _ => List.replicate 32 1) "alice" "secret123").data =
      (fun _ => List.replicate 32 (1 : Nat))
        (stringToBytes "alice" ++ [58]
          ++ (fun _ => List.replicate 32 (1 : Nat)) (stringToBytes "secret123")) ∧
    (build_blob (fun _ => List.replicate 32 1) "alice" "secret123").data.length = 32 :=
  claim_c4 (fun _ => List.replicate 32 1) (fun _ => by rw [List.length_replicate])
    "alice" "secret123"

/-- Claim C5, counterexample: the claim asserts that only the specific
not-found lookup outcome triggers registration and that every other
`getContract` failure propagates; but both registrars attach a
catch-all handler, so a distinct failure (a network error, say) also
triggers exactly the registration the claim forbids, and no failure
propagates. -/
theorem claim_c5_counterexample :
    LedgerError.other "network down" ≠ LedgerError.notFound ∧
    (register_contract_jwt [1] (Except.error (LedgerError.other "network down"))).snd.length
      = 1 ∧
    register_contract_secret [1] (Except.error (LedgerError.other "network down")) ≠ [] := by
  refine ⟨by simp, rfl, by simp [register_contract_secret]⟩

/-- Claim C5 as amended: both registrars register on every failed
`getContract` lookup, not only on the not-found outcome, and swallow
the lookup failure; a successful lookup registers nothing, and the
NotFound-then-success double-call scenario still issues exactly one
`registerContract` call. -/
theorem claim_c5_amended :
    (∀ (vk : List Nat) (e : LedgerError),
      register_contract_jwt vk (Except.error e) =
        (some vk,
          [{ verifier := "noir", program_id := vk, state_commitment := [0, 0, 0, 0],
             contract_name := contract_name_jwt }])) ∧
    (∀ vk : List Nat, register_contract_jwt vk (Except.ok ()) = (none, [])) ∧
    (∀ (vk : List Nat) (e : LedgerError),
      register_contract_secret vk (Except.error e) =
        [{ verifier := "noir", program_id := vk, state_commitment := [0, 0, 0, 0],
           contract_name := "check_secret" }]) ∧
    (∀ vk : List Nat, register_contract_secret vk (Except.ok ()) = []) ∧
    (∀ vk : List Nat,
      (register_contract_secret vk (Except.error LedgerError.notFound) ++
        register_contract_secret vk (Except.ok ())).length = 1) :=
  ⟨fun _ _ => rfl, fun _ => rfl, fun _ _ => rfl, fun _ => rfl, fun _ => rfl⟩

/-- Claim C6: every public-input field element below `2^256` is encoded
by `flattenFieldsAsArray` as its exact 32-byte big-endian
representation, in list order, and both proof pipelines place that
concatenation before the raw backend proof bytes in the returned
`proof`. -/
theorem claim_c6 (fields : List Nat) (hf : ∀ v ∈ fields, v < 2 ^ 256)
    (vk raw : List Nat) :
    flattenFieldsAsArray fields = (fields.map (beBytes 32)).flatten ∧
    (build_proof_transaction_jwt vk { publicInputs := fields, proof := raw }).proof =
      (fields.map (beBytes 32)).flatten ++ raw ∧
    (build_proof_transaction_secret vk { publicInputs := fields, proof := raw }).proof =
      (fields.map (beBytes 32)).flatten ++ raw := by
  have hmap : fields.map hexToUint8Array = fields.map (beBytes 32) :=
    List.map_congr_left (fun v hv => hexToUint8Array_eq_beBytes v (hf v hv))
  refine ⟨?_, ?_, ?_⟩
  · unfold flattenFieldsAsArray
    rw [hmap]
  · show reconstructHonkProof (flattenFieldsAsArray fields) raw = _
    unfold reconstructHonkProof flattenFieldsAsArray
    rw [hmap]
  · show reconstructHonkProof (flattenFieldsAsArray fields) raw = _
    unfold reconstructHonkProof flattenFieldsAsArray
    rw [hmap]

/-- Claim C6 witness: three concrete field elements, including zero and
a value spanning two bytes, flatten to their 32-byte big-endian
encodings followed by the raw proof bytes. -/
theorem claim_c6_witness :
    flattenFieldsAsArray [0, 1, 257] =
      (([0, 1, 257] : List Nat).map (beBytes 32)).flatten ∧
    (build_proof_transaction_jwt [9] { publicInputs := [0, 1, 257], proof := [5, 6] }).proof =
      (([0, 1, 257] : List Nat).map (beBytes 32)).flatten ++ [5, 6] ∧
    (build_proof_transaction_secret [9]
        { publicInputs := [0, 1, 257], proof := [5, 6] }).proof =
      (([0, 1, 257] : List Nat).map (beBytes 32)).flatten ++ [5, 6] :=
  claim_c6 [0, 1, 257] (by decide) [9] [5, 6]
